import Mathlib

/-!
Shallow embedding of the intent-routing core of `src/app.py`
(`identify_intent`, `extract_params`, `route_query` and the three
simulated handlers `getWeather`, `getJoke`, `addNumbers`).

Modelling conventions:
* Python strings are Lean `String`s; character-level work is done on
  `List Char` (`String.data`).
* Python's character classes `\s`, `\d`, `[a-zA-Z]`, `str.lower`,
  `str.title`, `str.strip` are modelled at ASCII level, which is what
  every keyword, regex and message in the source uses.
* Python `float` values are modelled as exact rationals (`ℚ`): every
  numeric literal matched by the source's number regex is a finite
  decimal, and the claims are about which numbers are extracted and
  added, not about IEEE rounding.
* A Python exception (KeyError on a missing dict key, TypeError from a
  handler applied at the wrong type, ValueError from `float`) is
  modelled as `Option.none`; `route_query` therefore returns
  `Option RouteResult`, and totality of the pipeline is the statement
  that it never returns `none`.
* The two `re.search` calls and the `re.findall` call are embedded as
  explicit leftmost-match scanners that mirror the backtracking
  behaviour of the three concrete patterns used by the source
  (commented at their definitions).
-/

namespace ChatbotGui

/-- Values stored in a Python dict / JSON envelope by the core:
either a string or a (rational-modelled) float. -/
inductive Value where
  | str : String → Value
  | num : ℚ → Value
deriving DecidableEq

/-- A Python dict as produced by `extract_params`: an association list
from key to value (the source never creates duplicate keys). -/
abbrev Params := List (String × Value)

/-- Lookup of a key in a parameter dict, mirroring `dict.get` /
`dict.__getitem__` key search. -/
def dictGet (params : Params) (key : String) : Option Value :=
  match params with
  | [] => none
  | (k, v) :: rest => if k = key then some v else dictGet rest key

/-- The response envelope assembled at the end of `route_query`. -/
structure RouteResult where
  query : String
  intent : String
  parameters : Params
  result : Option Value
  error : Option Value
deriving DecidableEq

/- ------------------------------------------------------------------
Character-level helpers modelling Python ASCII string behaviour.
------------------------------------------------------------------ -/

/-- ASCII whitespace, the characters matched by Python `\s` and
stripped by `str.strip()` (ASCII fragment). -/
def isPySpace (c : Char) : Bool :=
  c = ' ' || c = '\t' || c = '\n' || c = '\r' || c = '\x0b' || c = '\x0c'

/-- Python `str.strip()` on the character list. -/
def pyStrip (l : List Char) : List Char :=
  ((l.dropWhile isPySpace).reverse.dropWhile isPySpace).reverse

/-- Worker for `pyTitle`: the Boolean records whether the previous
character was a (cased) letter. -/
def pyTitleGo : List Char → Bool → List Char
  | [], _ => []
  | c :: cs, prevAlpha =>
    (if c.isAlpha then (if prevAlpha then c.toLower else c.toUpper) else c)
      :: pyTitleGo cs c.isAlpha

/-- Python `str.title()` (ASCII): a letter that follows a non-letter is
uppercased, a letter that follows a letter is lowercased. -/
def pyTitle (l : List Char) : List Char := pyTitleGo l false

/-- Does the second list start with the first one? -/
def listStartsWith : List Char → List Char → Bool
  | [], _ => true
  | _ :: _, [] => false
  | a :: as, b :: bs => a = b && listStartsWith as bs

/-- Python's substring containment `k in t` on character lists. -/
def containsSub (k : List Char) : List Char → Bool
  | [] => k.isEmpty
  | c :: cs => listStartsWith k (c :: cs) || containsSub k cs

/- ------------------------------------------------------------------
Simulated chatbot actions (the three handlers).
------------------------------------------------------------------ -/

/-- Handler `getWeather(location)`: `location.title().strip()`
interpolated into the fixed forecast sentence. -/
def getWeather (location : String) : String :=
  "Weather for " ++ String.mk (pyStrip (pyTitle location.data)) ++
    ": 31°C, partly cloudy, light breeze."

/-- Handler `getJoke()`. -/
def getJoke : String :=
  "Why did the developer go broke? Because they used up all their cache!"

/-- Handler `addNumbers(num1, num2)`. -/
def addNumbers (num1 num2 : ℚ) : ℚ := num1 + num2

/- ------------------------------------------------------------------
Intent recognition (`INTENT_KEYWORDS`, `identify_intent`).
------------------------------------------------------------------ -/

/-- The ordered keyword table (Python dicts preserve insertion order,
so iteration visits weather, joke, add in this order). -/
def INTENT_KEYWORDS : List (String × List String) :=
  [("weather", ["weather", "forecast", "temperature"]),
   ("joke", ["joke", "funny", "make me laugh"]),
   ("add", ["add", "sum", "plus", "+"])]

/-- `identify_intent`: lowercase the text, return the first table entry
one of whose keywords is a substring, else "unknown". -/
def identify_intent (text : String) : String :=
  let t := text.data.map Char.toLower
  match INTENT_KEYWORDS.find? (fun p => p.2.any (fun k => containsSub k.data t)) with
  | some p => p.1
  | none => "unknown"

/-- Helper used to state properties of `identify_intent`: does any of
the given keywords occur in the lowercased text? -/
def keywordHit (kws : List String) (t : String) : Bool :=
  kws.any (fun k => containsSub k.data (t.data.map Char.toLower))

/- ------------------------------------------------------------------
Weather location extraction: the two `re.search` strategies.

Strategy 1 is `re.search(r"(?:in|at|for)\s+([a-zA-Z\s.-]{2,})$", s, re.I)`
with `s = text.strip()`.  Since `s` is stripped there is no trailing
newline, so `$` is end-of-string.  The three alternatives are mutually
exclusive at any one position (distinct first letters), so a position
matches iff a preposition matches there, followed by at least one
whitespace character, with everything after the whitespace run lying in
the class `[a-zA-Z\s.-]` and reaching the end of the string, and a
group of at least 2 characters being available once at least one
whitespace character is consumed (so at least 3 characters must follow
the preposition).  The greedy `\s+` backtracks just enough to leave a
2-character group, whitespace being inside the class as well.
------------------------------------------------------------------ -/

/-- The character class `[a-zA-Z\s.-]` (with `re.I` a no-op on it). -/
def isLocChar (c : Char) : Bool :=
  c.isAlpha || isPySpace c || c = '.' || c = '-'

/-- Does one of the alternatives `in|at|for` match (case-insensitively)
at the head of the list?  Returns the length it consumes. -/
def prepAt : List Char → Option Nat
  | c1 :: c2 :: rest =>
    if c1.toLower = 'i' && c2.toLower = 'n' then some 2
    else if c1.toLower = 'a' && c2.toLower = 't' then some 2
    else
      match rest with
      | c3 :: _ =>
        if c1.toLower = 'f' && c2.toLower = 'o' && c3.toLower = 'r' then some 3
        else none
      | [] => none
  | _ => none

/-- Attempt the whole Strategy-1 pattern at the head of `l` (a suffix
of the stripped text); returns the captured group (group 1). -/
def strat1At (l : List Char) : Option (List Char) :=
  match prepAt l with
  | none => none
  | some p =>
    let rest := l.drop p
    let j0 := (rest.takeWhile isPySpace).length
    if j0 = 0 then none
    else if rest.length < 3 then none
    else if (rest.drop j0).all isLocChar then
      some (rest.drop (min j0 (rest.length - 2)))
    else none

/-- `re.search` for Strategy 1: try every start position left to
right, return the first successful capture. -/
def searchStrat1 : List Char → Option (List Char)
  | [] => none
  | c :: cs =>
    match strat1At (c :: cs) with
    | some g => some g
    | none => searchStrat1 cs

/-- Attempt the Strategy-2 pattern `([A-Za-z][A-Za-z\s.-]{1,})$` at the
head of `l`: a letter followed by at least one class character, with
the match anchored at the end of the string. -/
def strat2At (l : List Char) : Option (List Char) :=
  match l with
  | [] => none
  | c :: cs =>
    if c.isAlpha && !cs.isEmpty && cs.all isLocChar then some (c :: cs)
    else none

/-- `re.search` for Strategy 2 (leftmost successful start position). -/
def searchStrat2 : List Char → Option (List Char)
  | [] => none
  | c :: cs =>
    match strat2At (c :: cs) with
    | some g => some g
    | none => searchStrat2 cs

/- ------------------------------------------------------------------
Number extraction: `re.findall(r"[-+]?(?:\d*\.\d+|\d+)", text)` and
Python `float` on the matched substrings.
------------------------------------------------------------------ -/

/-- Split a list into its maximal leading run of ASCII digits and the
remainder (the behaviour of a greedy `\d*`). -/
def takeDigits : List Char → List Char × List Char
  | [] => ([], [])
  | c :: cs =>
    if c.isDigit then
      let p := takeDigits cs
      (c :: p.1, p.2)
    else ([], c :: cs)

/-- Match `(?:\d*\.\d+|\d+)` at the head of `l`: the first alternative
succeeds iff the maximal digit run is followed by a point and at least
one digit (backtracking `\d*` cannot help, a shorter run is followed by
a digit, not a point); otherwise the second alternative takes the
nonempty digit run.  Returns (matched token, rest). -/
def matchUnsigned (l : List Char) : Option (List Char × List Char) :=
  match (takeDigits l).2 with
  | '.' :: r2 =>
    if (takeDigits r2).1 = [] then
      if (takeDigits l).1 = [] then none else some ((takeDigits l).1, (takeDigits l).2)
    else some ((takeDigits l).1 ++ '.' :: (takeDigits r2).1, (takeDigits r2).2)
  | _ => if (takeDigits l).1 = [] then none else some ((takeDigits l).1, (takeDigits l).2)

/-- Match `[-+]?(?:\d*\.\d+|\d+)` at the head of `l`.  If a sign is
present but no number follows it, the empty-sign alternative also
fails, because a sign character starts no number. -/
def matchNumAt (l : List Char) : Option (List Char × List Char) :=
  match l with
  | [] => none
  | c :: cs =>
    if c = '+' || c = '-' then
      match matchUnsigned cs with
      | some p => some (c :: p.1, p.2)
      | none => none
    else matchUnsigned (c :: cs)

/-- Fuelled `re.findall` scan: at each position try the number pattern;
on success emit the (nonempty) token and continue after it, otherwise
advance one character.  Each step consumes at least one character, so
`length + 1` fuel never runs out (`scanNumsF_congr` below). -/
def scanNumsF : Nat → List Char → List (List Char)
  | 0, _ => []
  | fuel + 1, l =>
    match matchNumAt l with
    | some p => p.1 :: scanNumsF fuel p.2
    | none =>
      match l with
      | [] => []
      | _ :: cs => scanNumsF fuel cs

/-- `re.findall(r"[-+]?(?:\d*\.\d+|\d+)", ·)`: all matched numeric
substrings, left to right, non-overlapping. -/
def scanNums (l : List Char) : List (List Char) := scanNumsF (l.length + 1) l

/-- Value of a digit list read in base 10 (accumulator form). -/
def digitsToNatAux (acc : Nat) : List Char → Nat
  | [] => acc
  | c :: cs => digitsToNatAux (acc * 10 + (c.toNat - '0'.toNat)) cs

/-- Value of a digit list read in base 10. -/
def digitsToNat (l : List Char) : Nat := digitsToNatAux 0 l

/-- Python `float` on an unsigned decimal literal `digits`, `digits.`,
`.digits` or `digits.digits` (the only shapes the number regex can
produce); `none` models `ValueError` on any other input. -/
def parseUnsignedFloat (l : List Char) : Option ℚ :=
  match (takeDigits l).2 with
  | [] => if (takeDigits l).1 = [] then none else some (digitsToNat (takeDigits l).1 : ℚ)
  | '.' :: r2 =>
    match (takeDigits r2).2 with
    | [] =>
      if (takeDigits l).1 = [] && (takeDigits r2).1 = [] then none
      else some ((digitsToNat (takeDigits l).1 : ℚ) +
        (digitsToNat (takeDigits r2).1 : ℚ) / (10 : ℚ) ^ (takeDigits r2).1.length)
    | _ => none
  | _ => none

/-- Python `float` including an optional leading sign. -/
def parseFloatChars (l : List Char) : Option ℚ :=
  match l with
  | '+' :: rest => parseUnsignedFloat rest
  | '-' :: rest => (parseUnsignedFloat rest).map (fun x => -x)
  | _ => parseUnsignedFloat l

/- ------------------------------------------------------------------
`extract_params` and the dispatch half of `route_query`.
------------------------------------------------------------------ -/

/-- `extract_params(intent, text)`.  `none` models an exception (which
in fact never occurs: see `extract_params_total`). -/
def extract_params (intent : String) (text : String) : Option Params :=
  if intent = "weather" then
    let s := pyStrip text.data
    let m :=
      match searchStrat1 s with
      | some g => some g
      | none => searchStrat2 s
    let city : String :=
      match m with
      | some g => String.mk (pyStrip g)
      | none => "your city"
    some [("location", Value.str city)]
  else if intent = "add" then
    match scanNums text.data with
    | n1 :: n2 :: _ =>
      match parseFloatChars n1, parseFloatChars n2 with
      | some a, some b => some [("num1", Value.num a), ("num2", Value.num b)]
      | _, _ => none
    | _ => some [("error", Value.str "Please provide two numbers to add (e.g., 'add 12 and 7').")]
  else
    some []

/-- The branch cascade of `route_query` after parameter extraction
(the Dispatcher of the spec).  `params.get("location", "your city")`
is `dictGet` with the string default; `getWeather` applied to a
non-string and `addNumbers` applied to missing keys model the
exceptions Python would raise there (they never occur). -/
def dispatch (query : String) (intent : String) (params : Params) : Option RouteResult :=
  if intent = "weather" then
    match (dictGet params "location").getD (Value.str "your city") with
    | Value.str loc => some ⟨query, intent, params, some (Value.str (getWeather loc)), none⟩
    | Value.num _ => none
  else if intent = "joke" then
    some ⟨query, intent, params, some (Value.str getJoke), none⟩
  else if intent = "add" then
    match dictGet params "error" with
    | some e => some ⟨query, intent, params, none, some e⟩
    | none =>
      match dictGet params "num1", dictGet params "num2" with
      | some (Value.num a), some (Value.num b) =>
        some ⟨query, intent, params, some (Value.num (addNumbers a b)), none⟩
      | _, _ => none
  else
    some ⟨query, intent, params, none,
      some (Value.str "Sorry, I couldn't understand. Try asking for weather, a joke, or to add numbers.")⟩

/-- `route_query(query)`: classify, extract, dispatch. -/
def route_query (query : String) : Option RouteResult :=
  let intent := identify_intent query
  match extract_params intent query with
  | none => none
  | some params => dispatch query intent params

/- ------------------------------------------------------------------
Lemmas about the number scanner: every token it emits is a nonempty
numeric literal that Python `float` parses.
------------------------------------------------------------------ -/

theorem takeDigits_append (l : List Char) : (takeDigits l).1 ++ (takeDigits l).2 = l := by
  induction l with
  | nil => rfl
  | cons c cs ih =>
    by_cases h : c.isDigit
    · simp [takeDigits, h, ih]
    · simp [takeDigits, h]

theorem takeDigits_digits (l : List Char) : ∀ c ∈ (takeDigits l).1, c.isDigit = true := by
  induction l with
  | nil => intro c hc; simp [takeDigits] at hc
  | cons c cs ih =>
    intro d hd
    by_cases h : c.isDigit
    · simp [takeDigits, h] at hd
      rcases hd with hd | hd
      · exact hd ▸ h
      · exact ih d hd
    · simp [takeDigits, h] at hd

theorem takeDigits_of_digits (l : List Char) (h : ∀ c ∈ l, c.isDigit = true) :
    takeDigits l = (l, []) := by
  induction l with
  | nil => rfl
  | cons c cs ih =>
    have hc : c.isDigit = true := h c (List.mem_cons_self c cs)
    have hcs := ih (fun d hd => h d (List.mem_cons_of_mem c hd))
    simp [takeDigits, hc, hcs]

theorem takeDigits_append_stop (d : List Char) (hd : ∀ c ∈ d, c.isDigit = true)
    (c0 : Char) (hc0 : c0.isDigit = false) (r : List Char) :
    takeDigits (d ++ c0 :: r) = (d, c0 :: r) := by
  induction d with
  | nil => simp [takeDigits, hc0]
  | cons c cs ih =>
    have hc : c.isDigit = true := hd c (List.mem_cons_self c cs)
    have hcs := ih (fun e he => hd e (List.mem_cons_of_mem c he))
    simp [takeDigits, hc, hcs]

theorem digit_ne_plus {c : Char} (h : c.isDigit = true) : c ≠ '+' := by
  intro he; subst he; simp at h

theorem digit_ne_minus {c : Char} (h : c.isDigit = true) : c ≠ '-' := by
  intro he; subst he; simp at h

/-- Every token produced by `matchUnsigned` reassembles with the rest
to the input, starts with a digit or a point (never a sign), and is
accepted by `parseUnsignedFloat`. -/
theorem matchUnsigned_sound {l tok rest : List Char}
    (h : matchUnsigned l = some (tok, rest)) :
    tok ++ rest = l ∧ (∃ c t, tok = c :: t ∧ c ≠ '+' ∧ c ≠ '-') ∧
      ∃ v, parseUnsignedFloat tok = some v := by
  have happ := takeDigits_append l
  have hdig := takeDigits_digits l
  -- digits-only outcome, shared by several branches below
  have base : (takeDigits l).1 ≠ [] → tok = (takeDigits l).1 → rest = (takeDigits l).2 →
      tok ++ rest = l ∧ (∃ c t, tok = c :: t ∧ c ≠ '+' ∧ c ≠ '-') ∧
        ∃ v, parseUnsignedFloat tok = some v := by
    intro hne htok hrest
    subst htok; subst hrest
    obtain ⟨c, t, hd⟩ := List.exists_cons_of_ne_nil hne
    have hc : c.isDigit = true := hdig c (hd ▸ List.mem_cons_self c t)
    refine ⟨happ, ⟨c, t, hd, digit_ne_plus hc, digit_ne_minus hc⟩,
      (digitsToNat (takeDigits l).1 : ℚ), ?_⟩
    have hall := takeDigits_of_digits (takeDigits l).1 hdig
    unfold parseUnsignedFloat
    rw [hall]
    simp [hne]
  unfold matchUnsigned at h
  split at h
  · -- `(takeDigits l).2 = '.' :: r2`
    rename_i r2 heq
    split at h
    · -- no digit after the point: the `\d+` alternative
      split at h
      · exact absurd h (by simp)
      · rename_i hq1 hne
        rw [Option.some_inj, Prod.mk.injEq] at h
        obtain ⟨htok, hrest⟩ := h
        exact base hne htok.symm hrest.symm
    · -- token `d1.d2`
      rename_i hq1
      rw [Option.some_inj, Prod.mk.injEq] at h
      obtain ⟨htok, hrest⟩ := h
      have happ2 := takeDigits_append r2
      have hdig2 := takeDigits_digits r2
      subst htok; subst hrest
      refine ⟨?_, ?_, ?_⟩
      · rw [List.append_assoc]
        simp only [List.cons_append]
        rw [happ2, ← heq, happ]
      · rcases hd : (takeDigits l).1 with _ | ⟨c, t⟩
        · exact ⟨'.', (takeDigits r2).1, by simp, by decide, by decide⟩
        · have hc : c.isDigit = true := hdig c (hd ▸ List.mem_cons_self c t)
          exact ⟨c, t ++ '.' :: (takeDigits r2).1, by simp,
            digit_ne_plus hc, digit_ne_minus hc⟩
      · refine ⟨(digitsToNat (takeDigits l).1 : ℚ) +
          (digitsToNat (takeDigits r2).1 : ℚ) / (10 : ℚ) ^ (takeDigits r2).1.length, ?_⟩
        unfold parseUnsignedFloat
        rw [takeDigits_append_stop (takeDigits l).1 hdig '.' (by decide) (takeDigits r2).1]
        simp only
        rw [takeDigits_of_digits (takeDigits r2).1 hdig2]
        simp [hq1]
  · -- `(takeDigits l).2` does not start with a point
    split at h
    · exact absurd h (by simp)
    · rename_i hne
      rw [Option.some_inj, Prod.mk.injEq] at h
      obtain ⟨htok, hrest⟩ := h
      exact base hne htok.symm hrest.symm

/-- Every token produced by `matchNumAt` is nonempty, reassembles with
the rest to the input, and is accepted by `parseFloatChars`. -/
theorem matchNumAt_sound {l tok rest : List Char}
    (h : matchNumAt l = some (tok, rest)) :
    tok ++ rest = l ∧ tok ≠ [] ∧ ∃ v, parseFloatChars tok = some v := by
  rcases l with _ | ⟨c, cs⟩
  · simp [matchNumAt] at h
  · rw [show matchNumAt (c :: cs) =
        (if c = '+' || c = '-' then
          match matchUnsigned cs with
          | some p => some (c :: p.1, p.2)
          | none => none
        else matchUnsigned (c :: cs)) from rfl] at h
    split at h
    · -- leading sign character
      rename_i hsign
      rcases hm : matchUnsigned cs with _ | ⟨t0, r0⟩ <;> rw [hm] at h
      · simp at h
      · replace h : some (c :: t0, r0) = some (tok, rest) := h
        obtain ⟨happ0, -, v, hv⟩ := matchUnsigned_sound hm
        rw [Option.some_inj, Prod.mk.injEq] at h
        obtain ⟨htok, hrest⟩ := h
        subst htok; subst hrest
        refine ⟨by rw [List.cons_append, happ0], by simp, ?_⟩
        simp only [Bool.or_eq_true, decide_eq_true_eq] at hsign
        rcases hsign with hc | hc <;> subst hc
        · exact ⟨v, hv⟩
        · refine ⟨-v, ?_⟩
          show (parseUnsignedFloat t0).map (fun x => -x) = some (-v)
          rw [hv]
          rfl
    · -- no sign: the token itself starts with a digit or a point
      rename_i hsign
      obtain ⟨happ0, ⟨c', t', htok', hcp, hcm⟩, v, hv⟩ := matchUnsigned_sound h
      refine ⟨happ0, by rw [htok']; simp, v, ?_⟩
      rw [htok'] at hv ⊢
      unfold parseFloatChars
      split
      · rename_i heq2
        injection heq2 with h1 h2
        exact absurd h1 hcp
      · rename_i heq2
        injection heq2 with h1 h2
        exact absurd h1 hcm
      · exact hv

theorem matchNumAt_length {l : List Char} {p : List Char × List Char}
    (h : matchNumAt l = some p) : p.2.length < l.length := by
  rcases p with ⟨tok, rest⟩
  obtain ⟨happ, hne, -⟩ := matchNumAt_sound h
  rw [← happ]
  rcases tok with _ | ⟨c, t⟩
  · exact absurd rfl hne
  · simp only [List.cons_append, List.length_cons, List.length_append]
    omega

theorem scanNumsF_zero (l : List Char) : scanNumsF 0 l = [] := rfl

theorem scanNumsF_succ (n : Nat) (l : List Char) :
    scanNumsF (n + 1) l =
      match matchNumAt l with
      | some p => p.1 :: scanNumsF n p.2
      | none =>
        match l with
        | [] => []
        | _ :: cs => scanNumsF n cs := rfl

theorem scanNumsF_parses : ∀ (f : Nat) (l tok : List Char), tok ∈ scanNumsF f l →
    ∃ v, parseFloatChars tok = some v := by
  intro f
  induction f with
  | zero => intro l tok h; simp [scanNumsF_zero] at h
  | succ n ih =>
    intro l tok h
    rw [scanNumsF_succ] at h
    rcases hm : matchNumAt l with _ | ⟨t0, r0⟩ <;> rw [hm] at h
    · rcases l with _ | ⟨c, cs⟩
      · simp at h
      · replace h : tok ∈ scanNumsF n cs := h
        exact ih cs tok h
    · replace h : tok ∈ t0 :: scanNumsF n r0 := h
      rcases List.mem_cons.mp h with h1 | h1
      · subst h1
        exact (matchNumAt_sound hm).2.2
      · exact ih r0 tok h1

/-- Every numeric substring found by `re.findall` parses as a float. -/
theorem scanNums_parses (l tok : List Char) (h : tok ∈ scanNums l) :
    ∃ v, parseFloatChars tok = some v :=
  scanNumsF_parses _ l tok h

/-- The fuelled findall scan does not depend on the fuel, as long as
there is more fuel than characters. -/
theorem scanNumsF_congr : ∀ (f1 f2 : Nat) (l : List Char), l.length < f1 → l.length < f2 →
    scanNumsF f1 l = scanNumsF f2 l := by
  intro f1
  induction f1 with
  | zero => intro f2 l h1 h2; omega
  | succ n ih =>
    intro f2 l h1 h2
    cases f2 with
    | zero => omega
    | succ m =>
      rw [scanNumsF_succ, scanNumsF_succ]
      rcases hm : matchNumAt l with _ | ⟨t0, r0⟩
      · rcases l with _ | ⟨c, cs⟩
        · rfl
        · show scanNumsF n cs = scanNumsF m cs
          simp only [List.length_cons] at h1 h2
          exact ih m cs (by omega) (by omega)
      · show t0 :: scanNumsF n r0 = t0 :: scanNumsF m r0
        have hl := matchNumAt_length hm
        simp only at hl
        rw [ih m r0 (by omega) (by omega)]

/-- The `length + 1` fuel used by `scanNums` is always sufficient. -/
theorem scanNumsF_adequate (f : Nat) (l : List Char) (h : l.length < f) :
    scanNumsF f l = scanNums l :=
  scanNumsF_congr f (l.length + 1) l h (Nat.lt_succ_self _)

/- ------------------------------------------------------------------
Characterisation of the classifier and the shapes of the parameter
dicts, leading to totality of the pipeline.
------------------------------------------------------------------ -/

/-- The classifier scans the table in declaration order: weather, then
joke, then add, else unknown. -/
theorem identify_intent_eq (t : String) :
    identify_intent t =
      if keywordHit ["weather", "forecast", "temperature"] t then "weather"
      else if keywordHit ["joke", "funny", "make me laugh"] t then "joke"
      else if keywordHit ["add", "sum", "plus", "+"] t then "add"
      else "unknown" := by
  cases hW : keywordHit ["weather", "forecast", "temperature"] t <;>
    cases hJ : keywordHit ["joke", "funny", "make me laugh"] t <;>
    cases hA : keywordHit ["add", "sum", "plus", "+"] t <;>
    · unfold keywordHit at hW hJ hA
      simp [identify_intent, INTENT_KEYWORDS, List.find?, hW, hJ, hA]

theorem intent_cases (q : String) :
    identify_intent q = "weather" ∨ identify_intent q = "joke" ∨
      identify_intent q = "add" ∨ identify_intent q = "unknown" := by
  rw [identify_intent_eq]
  split_ifs <;> simp

/-- The weather branch of `extract_params` always produces a
one-entry dict holding a string location. -/
theorem extract_params_weather (t : String) :
    ∃ c, extract_params "weather" t = some [("location", Value.str c)] := by
  rw [extract_params, if_pos rfl]
  exact ⟨_, rfl⟩

/-- The add branch of `extract_params` produces either the error dict
or a two-number dict, never an exception. -/
theorem extract_params_add (t : String) :
    extract_params "add" t =
        some [("error", Value.str "Please provide two numbers to add (e.g., 'add 12 and 7').")] ∨
      ∃ a b n1 n2 r, scanNums t.data = n1 :: n2 :: r ∧
        parseFloatChars n1 = some a ∧ parseFloatChars n2 = some b ∧
        extract_params "add" t = some [("num1", Value.num a), ("num2", Value.num b)] := by
  have hrw : extract_params "add" t =
      (match scanNums t.data with
      | n1 :: n2 :: _ =>
        match parseFloatChars n1, parseFloatChars n2 with
        | some a, some b => some [("num1", Value.num a), ("num2", Value.num b)]
        | _, _ => none
      | _ => some [("error",
          Value.str "Please provide two numbers to add (e.g., 'add 12 and 7').")]) := by
    rw [extract_params, if_neg (by decide), if_pos rfl]
  rcases hs : scanNums t.data with _ | ⟨n1, rest1⟩
  · left; rw [hrw, hs]
  · rcases rest1 with _ | ⟨n2, rest2⟩
    · left; rw [hrw, hs]
    · right
      obtain ⟨a, ha⟩ := scanNums_parses t.data n1 (by rw [hs]; exact List.mem_cons_self _ _)
      obtain ⟨b, hb⟩ := scanNums_parses t.data n2
        (by rw [hs]; exact List.mem_cons_of_mem _ (List.mem_cons_self _ _))
      refine ⟨a, b, n1, n2, rest2, rfl, ha, hb, hrw.trans ?_⟩
      rw [hs]
      show (match parseFloatChars n1, parseFloatChars n2 with
        | some a, some b => some [("num1", Value.num a), ("num2", Value.num b)]
        | _, _ => none) = some [("num1", Value.num a), ("num2", Value.num b)]
      rw [ha, hb]

/-- For any intent other than weather and add, extraction returns the
empty dict. -/
theorem extract_params_other (i t : String) (hw : i ≠ "weather") (ha : i ≠ "add") :
    extract_params i t = some [] := by
  rw [extract_params, if_neg hw, if_neg ha]

/-- `extract_params` never raises for any of the four intents the
classifier can produce. -/
theorem extract_params_total (q : String) :
    ∃ ps, extract_params (identify_intent q) q = some ps := by
  rcases intent_cases q with h | h | h | h <;> rw [h]
  · obtain ⟨c, hc⟩ := extract_params_weather q
    exact ⟨_, hc⟩
  · exact ⟨_, extract_params_other _ q (by decide) (by decide)⟩
  · rcases extract_params_add q with hc | ⟨a, b, n1, n2, r, -, -, -, hc⟩ <;> exact ⟨_, hc⟩
  · exact ⟨_, extract_params_other _ q (by decide) (by decide)⟩

/-- Totality and result/error exclusivity of the whole pipeline:
`route_query` always returns an envelope, and that envelope carries
exactly one of `result`/`error`. -/
theorem route_total (q : String) :
    ∃ r, route_query q = some r ∧
      ((r.result.isSome = true ∧ r.error = none) ∨
        (r.result = none ∧ r.error.isSome = true)) := by
  rcases intent_cases q with h | h | h | h <;> simp only [route_query, h]
  · -- weather
    obtain ⟨c, hc⟩ := extract_params_weather q
    rw [hc]
    refine ⟨⟨q, "weather", [("location", Value.str c)],
      some (Value.str (getWeather c)), none⟩, ?_, Or.inl ⟨rfl, rfl⟩⟩
    show dispatch q "weather" [("location", Value.str c)] = _
    rw [dispatch, if_pos rfl]
    rfl
  · -- joke
    rw [extract_params_other "joke" q (by decide) (by decide)]
    refine ⟨⟨q, "joke", [], some (Value.str getJoke), none⟩, ?_, Or.inl ⟨rfl, rfl⟩⟩
    show dispatch q "joke" [] = _
    rw [dispatch, if_neg (by decide), if_pos rfl]
  · -- add
    rcases extract_params_add q with hc | ⟨a, b, n1, n2, r, -, -, -, hc⟩ <;> rw [hc]
    · refine ⟨⟨q, "add",
        [("error", Value.str "Please provide two numbers to add (e.g., 'add 12 and 7').")],
        none, some (Value.str "Please provide two numbers to add (e.g., 'add 12 and 7').")⟩,
        ?_, Or.inr ⟨rfl, rfl⟩⟩
      show dispatch q "add" _ = _
      rw [dispatch, if_neg (by decide), if_neg (by decide), if_pos rfl]
      rfl
    · refine ⟨⟨q, "add", [("num1", Value.num a), ("num2", Value.num b)],
        some (Value.num (addNumbers a b)), none⟩, ?_, Or.inl ⟨rfl, rfl⟩⟩
      show dispatch q "add" _ = _
      rw [dispatch, if_neg (by decide), if_neg (by decide), if_pos rfl]
      rfl
  · -- unknown
    rw [extract_params_other "unknown" q (by decide) (by decide)]
    refine ⟨⟨q, "unknown", [], none, some (Value.str
      "Sorry, I couldn't understand. Try asking for weather, a joke, or to add numbers.")⟩,
      ?_, Or.inr ⟨rfl, rfl⟩⟩
    show dispatch q "unknown" [] = _
    rw [dispatch, if_neg (by decide), if_neg (by decide), if_neg (by decide)]

/- ------------------------------------------------------------------
The claims.
------------------------------------------------------------------ -/

/-- Claim C1: for every string query, `route_query` returns a
RouteResult envelope in which exactly one of `result` and `error` is
non-null — never both and never neither — across all four intent
branches. -/
theorem claim_C1 (q : String) :
    ∃ r, route_query q = some r ∧
      ((r.result.isSome = true ∧ r.error = none) ∨
        (r.result = none ∧ r.error.isSome = true)) :=
  route_total q

/-- Claim C2: the core pipeline is total: `route_query` never models a
raised exception (`none`) on any string input, and every numeric
substring matched by the add regex parses as a float. -/
theorem claim_C2 (q : String) :
    (route_query q).isSome = true ∧
      (scanNums q.data).all (fun tok => (parseFloatChars tok).isSome) = true := by
  constructor
  · obtain ⟨r, hr, -⟩ := route_total q
    rw [hr]
    rfl
  · rw [List.all_eq_true]
    intro tok htok
    obtain ⟨v, hv⟩ := scanNums_parses q.data tok htok
    simp [hv]

/-- Claim C3 counterexample: on the query "weather" the extractor does
NOT return the default location "your city". -/
theorem claim_C3_cex :
    extract_params "weather" "weather" ≠ some [("location", Value.str "your city")] := by
  decide

/-- Claim C3 as amended: on the query "weather" the Strategy-2
fallback regex captures the word "weather" itself as the location, so
the "your city" default is not used. -/
theorem claim_C3 :
    extract_params "weather" "weather" = some [("location", Value.str "weather")] := by
  decide

/-- Claim C4 counterexample: with the trailing question mark the
extractor returns the default "your city" — the captured location is
neither "Mumbai" nor "Mumbai?", because both regexes anchor at the end
of the text and their character class excludes the question mark. -/
theorem claim_C4_cex :
    extract_params "weather" "What's the weather in Mumbai?" =
        some [("location", Value.str "your city")] ∧
      extract_params "weather" "What's the weather in Mumbai?" ≠
        some [("location", Value.str "Mumbai")] ∧
      extract_params "weather" "What's the weather in Mumbai?" ≠
        some [("location", Value.str "Mumbai?")] := by
  decide

/-- Claim C4 as amended: without the trailing question mark, Strategy 1
captures the clause after the preposition "in" at the end of the
trimmed text, yielding the location "Mumbai". -/
theorem claim_C4 :
    extract_params "weather" "What's the weather in Mumbai" =
      some [("location", Value.str "Mumbai")] := by
  decide

/-- Claim C5: the classifier scans the keyword table in the fixed order
weather, joke, add, returning the first intent one of whose keywords is
a substring of the lowercased text: any text containing a weather
keyword classifies as weather, and a text containing a keyword of a
later category yields the earlier-declared matching category
(first-match-wins). -/
theorem claim_C5 (t : String) :
    (keywordHit ["weather", "forecast", "temperature"] t = true →
      identify_intent t = "weather") ∧
    (keywordHit ["weather", "forecast", "temperature"] t = false →
      keywordHit ["joke", "funny", "make me laugh"] t = true →
      identify_intent t = "joke") ∧
    (keywordHit ["weather", "forecast", "temperature"] t = false →
      keywordHit ["joke", "funny", "make me laugh"] t = false →
      keywordHit ["add", "sum", "plus", "+"] t = true →
      identify_intent t = "add") := by
  refine ⟨fun h1 => ?_, fun h1 h2 => ?_, fun h1 h2 h3 => ?_⟩
  · rw [identify_intent_eq]; simp [h1]
  · rw [identify_intent_eq]; simp [h1, h2]
  · rw [identify_intent_eq]; simp [h1, h2, h3]

/-- Claim C5 witness: a weather keyword wins; a text with both joke and
add keywords classifies as joke (the earlier-declared category); an
add keyword alone yields add. -/
theorem claim_C5_witness :
    identify_intent "It is hot temperature today" = "weather" ∧
      identify_intent "add a joke" = "joke" ∧
      identify_intent "2 plus 2" = "add" :=
  ⟨(claim_C5 "It is hot temperature today").1 (by decide),
   (claim_C5 "add a joke").2.1 (by decide) (by decide),
   (claim_C5 "2 plus 2").2.2 (by decide) (by decide) (by decide)⟩

/-- Claim C6: a text whose lowercased form contains none of the
configured keywords classifies as unknown; in particular the empty
string classifies as unknown, and the core still executes on it. -/
theorem claim_C6 :
    (∀ t : String,
      keywordHit ["weather", "forecast", "temperature"] t = false →
      keywordHit ["joke", "funny", "make me laugh"] t = false →
      keywordHit ["add", "sum", "plus", "+"] t = false →
      identify_intent t = "unknown") ∧
    identify_intent "" = "unknown" ∧
    ∃ r, route_query "" = some r ∧ r.intent = "unknown" := by
  refine ⟨fun t h1 h2 h3 => ?_, by decide, ?_⟩
  · rw [identify_intent_eq]; simp [h1, h2, h3]
  · exact ⟨⟨"", "unknown", [], none, some (Value.str
      "Sorry, I couldn't understand. Try asking for weather, a joke, or to add numbers.")⟩,
      by decide, rfl⟩

/-- Claim C6 witness: a keyword-free text classifies as unknown. -/
theorem claim_C6_witness : identify_intent "hello" = "unknown" :=
  claim_C6.1 "hello" (by decide) (by decide) (by decide)

/-- Claim C7: with at least two numeric substrings, add extraction
returns the first two (left to right) parsed as floats and dispatch
places their sum in `result`; with fewer than two, extraction returns
the fixed error message which dispatch copies verbatim into `error`
with `result` null. -/
theorem claim_C7 (t : String) :
    (∀ n1 n2 r, scanNums t.data = n1 :: n2 :: r →
      ∃ a b, parseFloatChars n1 = some a ∧ parseFloatChars n2 = some b ∧
        extract_params "add" t = some [("num1", Value.num a), ("num2", Value.num b)] ∧
        dispatch t "add" [("num1", Value.num a), ("num2", Value.num b)] =
          some ⟨t, "add", [("num1", Value.num a), ("num2", Value.num b)],
            some (Value.num (addNumbers a b)), none⟩) ∧
    ((scanNums t.data).length < 2 →
      extract_params "add" t =
        some [("error", Value.str "Please provide two numbers to add (e.g., 'add 12 and 7').")] ∧
      dispatch t "add"
          [("error", Value.str "Please provide two numbers to add (e.g., 'add 12 and 7').")] =
        some ⟨t, "add",
          [("error", Value.str "Please provide two numbers to add (e.g., 'add 12 and 7').")],
          none,
          some (Value.str "Please provide two numbers to add (e.g., 'add 12 and 7').")⟩) := by
  constructor
  · intro n1 n2 r hs
    obtain ⟨a, ha⟩ := scanNums_parses t.data n1 (by rw [hs]; exact List.mem_cons_self _ _)
    obtain ⟨b, hb⟩ := scanNums_parses t.data n2
      (by rw [hs]; exact List.mem_cons_of_mem _ (List.mem_cons_self _ _))
    refine ⟨a, b, ha, hb, ?_, ?_⟩
    · rw [extract_params, if_neg (by decide), if_pos rfl, hs]
      show (match parseFloatChars n1, parseFloatChars n2 with
        | some a, some b => some [("num1", Value.num a), ("num2", Value.num b)]
        | _, _ => none) = some [("num1", Value.num a), ("num2", Value.num b)]
      rw [ha, hb]
    · rw [dispatch, if_neg (by decide), if_neg (by decide), if_pos rfl]
      rfl
  · intro hlen
    have hcase : extract_params "add" t =
        some [("error", Value.str "Please provide two numbers to add (e.g., 'add 12 and 7').")] := by
      rcases hs : scanNums t.data with _ | ⟨n1, rest1⟩
      · rw [extract_params, if_neg (by decide), if_pos rfl, hs]
      · rcases rest1 with _ | ⟨n2, rest2⟩
        · rw [extract_params, if_neg (by decide), if_pos rfl, hs]
        · rw [hs] at hlen
          simp only [List.length_cons] at hlen
          omega
    refine ⟨hcase, ?_⟩
    rw [dispatch, if_neg (by decide), if_neg (by decide), if_pos rfl]
    rfl

/-- Claim C7 witness: "add 12 and 7" extracts 12.0 and 7.0 and
dispatches their sum, and "add some numbers" yields the fixed error
envelope. -/
theorem claim_C7_witness :
    (∃ a b, parseFloatChars ['1', '2'] = some a ∧ parseFloatChars ['7'] = some b ∧
      extract_params "add" "add 12 and 7" =
        some [("num1", Value.num a), ("num2", Value.num b)] ∧
      dispatch "add 12 and 7" "add" [("num1", Value.num a), ("num2", Value.num b)] =
        some ⟨"add 12 and 7", "add", [("num1", Value.num a), ("num2", Value.num b)],
          some (Value.num (addNumbers a b)), none⟩) ∧
    (extract_params "add" "add some numbers" =
        some [("error", Value.str "Please provide two numbers to add (e.g., 'add 12 and 7').")] ∧
      dispatch "add some numbers" "add"
          [("error", Value.str "Please provide two numbers to add (e.g., 'add 12 and 7').")] =
        some ⟨"add some numbers", "add",
          [("error", Value.str "Please provide two numbers to add (e.g., 'add 12 and 7').")],
          none,
          some (Value.str "Please provide two numbers to add (e.g., 'add 12 and 7').")⟩) :=
  ⟨(claim_C7 "add 12 and 7").1 ['1', '2'] ['7'] [] (by decide),
   (claim_C7 "add some numbers").2 (by decide)⟩

/-- Claim C8: for every query whose intent is unknown, dispatch sets
the fixed clarification message as `error` and leaves `result` null,
regardless of the query text. -/
theorem claim_C8 (q : String) (h : identify_intent q = "unknown") :
    route_query q = some ⟨q, "unknown", [], none, some (Value.str
      "Sorry, I couldn't understand. Try asking for weather, a joke, or to add numbers.")⟩ := by
  simp only [route_query, h]
  rw [extract_params_other "unknown" q (by decide) (by decide)]
  show dispatch q "unknown" [] = _
  rw [dispatch, if_neg (by decide), if_neg (by decide), if_neg (by decide)]

/-- Claim C8 witness: a keyword-free query gets the clarification
message. -/
theorem claim_C8_witness :
    route_query "hello" = some ⟨"hello", "unknown", [], none, some (Value.str
      "Sorry, I couldn't understand. Try asking for weather, a joke, or to add numbers.")⟩ :=
  claim_C8 "hello" (by decide)

/-- Claim C9: `route_query` is deterministic and stateless — the
source reads no mutable state (the keyword table is a constant), so it
embeds as a pure function, and any number of repeated invocations on
the same query yield identical RouteResult values. -/
theorem claim_C9 (q : String) (n : Nat) :
    (List.replicate n q).map route_query = List.replicate n (route_query q) := by
  induction n with
  | zero => rfl
  | succ m ih => simp [List.replicate_succ, ih]

/-- Claim C10: Strategy 1 matches its preposition as a bare substring:
in "weather certain Mumbai" the "in" embedded at the end of "certain"
lets Strategy 1 capture "Mumbai", even though Strategy 2 would have
captured the whole text, so the extractor returns Mumbai via the
embedded occurrence. -/
theorem claim_C10 :
    searchStrat1 (pyStrip "weather certain Mumbai".data) = some "Mumbai".data ∧
      searchStrat2 (pyStrip "weather certain Mumbai".data) =
        some "weather certain Mumbai".data ∧
      extract_params "weather" "weather certain Mumbai" =
        some [("location", Value.str "Mumbai")] := by
  decide

end ChatbotGui
